import Mathlib

set_option autoImplicit false

/-!
Verification development for the askd multi-target table replication engine.

The repository contains several overlapping engine variants.  The two that
carry the data-merge path are
  * `enhanced_replication_manager.py` (namespace `Enhanced` below), and
  * `test/new_replication_orchestrator.py` (namespace `Orchestrator` below),
with the raw setup engine `raw_replication_manager.py` (namespace `Raw`).

Tables are modelled as lists of rows; a row is the primary-key value plus the
tuple of all non-key column values (both implementations join their MERGE on
the single configured primary-key column).
-/

/-- A row of a replicated table: the value of the primary-key column together
with the tuple of values of all non-key columns. -/
structure Row (K V : Type) where
  key : K
  vals : V
deriving DecidableEq, Repr

/-- A table is the (ordered) bag of its rows, as fetched by `SELECT *`. -/
abbrev Table (K V : Type) := List (Row K V)

/-- First row of `t` whose primary-key value is `k` (the join lookup performed
by `MERGE ... ON target.[pk] = source.[pk]`). -/
def findRow {K V : Type} [DecidableEq K] (t : Table K V) (k : K) : Option (Row K V) :=
  t.find? (fun r => decide (r.key = k))

/-- Effect of the MERGE statement on one target row: a matched row has every
non-key column updated from the source (`WHEN MATCHED THEN UPDATE SET ...`);
an unmatched row is deleted when the `WHEN NOT MATCHED BY SOURCE THEN DELETE`
clause is appended, otherwise kept. -/
def mergeUpdateRow {K V : Type} [DecidableEq K] (deleteUnmatched : Bool)
    (source : Table K V) (r : Row K V) : Option (Row K V) :=
  match findRow source r.key with
  | some s => some ⟨r.key, s.vals⟩
  | none => if deleteUnmatched then none else some r

/-- Semantics of the MERGE statement issued by both engines
(`Enhanced._merge_data` and `Orchestrator._apply_to_replica`): matched target
rows get all non-key columns updated from the staging source, source rows not
matched by the target are inserted with all columns, and — only when
`deleteUnmatched` (the `WHEN NOT MATCHED BY SOURCE THEN DELETE` clause) —
target rows not matched by the source are deleted. -/
def mergeTable {K V : Type} [DecidableEq K] (deleteUnmatched : Bool)
    (target source : Table K V) : Table K V :=
  target.filterMap (mergeUpdateRow deleteUnmatched source)
    ++ source.filter (fun s => !(target.any (fun r => decide (r.key = s.key))))

/-- Keys of a table, in row order. -/
def keysOf {K V : Type} (t : Table K V) : List K :=
  t.map Row.key

/-- Sync mode of a replication unit (the configuration strings "full" and
"incremental" of `sync_mode`). -/
inductive SyncMode
  | full
  | incremental
deriving DecidableEq, Repr

/-- Per-table configuration, mirroring the `TableConfig` dataclass of
enhanced_replication_manager.py lines 34-41. -/
structure TableConfig where
  table_name : String
  primary_key : String
  replicate : Bool
  sync_mode : String
  timestamp_column : Option String
deriving DecidableEq, Repr

/-- Per-schema configuration, mirroring the `SchemaConfig` dataclass of
enhanced_replication_manager.py lines 44-48. -/
structure SchemaConfig where
  schema_name : String
  tables : List TableConfig
deriving DecidableEq, Repr

/-- Statements a merge attempt can execute against a replica connection, in
the order they occur in the code. -/
inductive Stmt
  | probeIdentity
  | identityOn
  | createStaging
  | bulkInsert
  | mergeStmt
  | dropStaging
  | identityOff
deriving DecidableEq, Repr

/-- Run a list of statements in order against a failure oracle; a failing
statement raises: neither it nor the statements after it are recorded as
successfully executed, and the run is marked aborted. -/
def runSeq (fails : Stmt → Bool) : List Stmt → List Stmt × Bool
  | [] => ([], false)
  | s :: rest =>
      if fails s then ([], true)
      else
        let p := runSeq fails rest
        (s :: p.1, p.2)

/-- Result of one incremental sync attempt for one (unit, replica) pair:
whether a MERGE was issued against the replica, and the in-memory watermark
store after the attempt. -/
structure IncrementalSyncResult (κ : Type) where
  mergeIssued : Bool
  lastSyncTimes : List (κ × Nat)
deriving DecidableEq, Repr

/-- Lookup `self.last_sync_times.get(table_key)` on the watermark dictionary,
modelled as an association list. -/
def getLastSync {κ : Type} [DecidableEq κ] (m : List (κ × Nat)) (k : κ) : Option Nat :=
  (m.find? (fun p => decide (p.1 = k))).map Prod.snd

/-- Assignment `self.last_sync_times[table_key] = now` on the watermark
dictionary. -/
def setLastSync {κ : Type} [DecidableEq κ] (m : List (κ × Nat)) (k : κ) (t : Nat) :
    List (κ × Nat) :=
  (k, t) :: m.filter (fun p => !(decide (p.1 = k)))

/-- Abstract catalog state of one replica endpoint: whether the target
database exists, which schema names exist in it, and which (schema, table)
pairs exist. -/
structure ReplicaState where
  dbExists : Bool
  schemas : List String
  tables : List (String × String)
deriving DecidableEq, Repr

/-- DDL statements the bootstrap can execute on a replica. -/
inductive DDL
  | createDatabase
  | createSchema (name : String)
  | createTable (schemaName tableName : String)
deriving DecidableEq, Repr

/-- The three auto-setup flags read from the `replication` configuration
section (enhanced_replication_manager.py lines 73-75). -/
structure SetupFlags where
  autoSetupReplicas : Bool
  createMissingSchemas : Bool
  createMissingTables : Bool
deriving DecidableEq, Repr

/-- Outcome of one attempt inside `execute_query_with_retry`: the query
returns a value, the driver raises a `pyodbc.Error` carrying an error code
(the typed driver error that connectivity, authentication and timeout
failures surface as), or some other exception is raised. -/
inductive AttemptOutcome (α : Type)
  | ok (val : α)
  | dbError (code : Nat)
  | otherError
deriving DecidableEq, Repr

/-- Final outcome of `execute_query_with_retry`: a returned value, a
re-raised `pyodbc.Error`, a re-raised other exception, or the implicit
`return None` when `range(retry_attempts)` is empty. -/
inductive RetryOutcome (α : Type)
  | returned (val : α)
  | raisedDbError (code : Nat)
  | raisedOther
  | fellThrough
deriving DecidableEq, Repr

/-- Trace of a run of `execute_query_with_retry`: how many attempts ran, the
backoff sleeps between consecutive attempts in order, and the final
outcome. -/
structure RetryTrace (α : Type) where
  attemptsMade : Nat
  sleeps : List Nat
  result : RetryOutcome α
deriving DecidableEq, Repr

namespace Orchestrator

/-- Table-level semantics of the MERGE built by `_apply_to_replica`
(new_replication_orchestrator.py lines 240-256): the clause
`WHEN NOT MATCHED BY SOURCE THEN DELETE` is appended to the statement exactly
when the global `replicate_deletes` flag is set and the unit's sync mode is
`full`. -/
def apply_to_replica_merge {K V : Type} [DecidableEq K] (replicateDeletes : Bool)
    (syncMode : SyncMode) (target source : Table K V) : Table K V :=
  mergeTable (replicateDeletes && (syncMode == SyncMode.full)) target source

/-- Statement-level model of `_apply_to_replica`
(new_replication_orchestrator.py lines 195-270): the body of the try block
creates the staging table, bulk-inserts when the batch is non-empty, and runs
the MERGE; an exception is caught, rolled back and logged (not re-raised);
the finally block always attempts `DROP TABLE` on the staging table, its own
failure only logged.  Returns the statements that executed successfully. -/
def apply_to_replica_stmts (fails : Stmt → Bool) (dataEmpty : Bool) : List Stmt :=
  let body := [Stmt.createStaging]
      ++ (if dataEmpty then [] else [Stmt.bulkInsert])
      ++ [Stmt.mergeStmt]
  (runSeq fails body).1
    ++ (if fails Stmt.dropStaging then [] else [Stmt.dropStaging])

end Orchestrator

namespace Enhanced

/-- Table-level semantics of `_sync_table_full`
(enhanced_replication_manager.py lines 479-505): the replica table is first
cleared by an unconditional `DELETE FROM [schema].[table]`, then, when the
master snapshot is non-empty, `_merge_data` merges the full snapshot into the
now-empty table.  This engine never consults a `replicate_deletes` flag; the
clearing delete runs unconditionally. -/
def sync_table_full {K V : Type} [DecidableEq K]
    (target masterData : Table K V) : Table K V :=
  let cleared : Table K V := []
  if masterData.isEmpty then cleared
  else mergeTable false cleared masterData

/-- Watermark and merge behavior of `_sync_table_incremental`
(enhanced_replication_manager.py lines 507-545).  With no timestamp column
the function only logs a warning and returns.  Otherwise `fetch w` stands for
the rows returned by `SELECT * ... WHERE [ts] > w` where `w` is the stored
watermark for `tableKey` (`datetime.min`, modelled as 0, when absent);
`_merge_data` is invoked only when the fetch is non-empty (and itself returns
immediately on an empty frame, lines 410-411); finally the watermark for
`tableKey` is set to `now` (`datetime.now()`). -/
def sync_table_incremental {K V κ : Type} [DecidableEq κ]
    (timestampColumn : Option String) (tableKey : κ)
    (lastSyncTimes : List (κ × Nat)) (fetch : Nat → Table K V) (now : Nat) :
    IncrementalSyncResult κ :=
  match timestampColumn with
  | none => { mergeIssued := false, lastSyncTimes := lastSyncTimes }
  | some _ =>
      let lastSync := (getLastSync lastSyncTimes tableKey).getD 0
      let masterData := fetch lastSync
      { mergeIssued := !masterData.isEmpty
        lastSyncTimes := setLastSync lastSyncTimes tableKey now }

/-- Possible outcomes of a `_sync_table` call
(enhanced_replication_manager.py lines 547-573). -/
inductive SyncTableOutcome
  | notReplicated
  | missingNoCreate
  | fullSync
  | incrementalSync
  | warnedNoTimestampColumn
  | unknownMode
deriving DecidableEq, Repr

/-- Dispatch logic of `_sync_table` combined with the guard at the top of
`_sync_table_incremental` (lines 510-513): a unit in incremental mode with no
`timestamp_column` logs a warning and returns without fetching, merging or
touching the watermark — it is not rejected, not excluded, and not run as a
full sync.  `tableExistsOnReplica` and `createMissingTables` model the
existence gate of lines 554-561. -/
def sync_table_outcome (tableExistsOnReplica createMissingTables : Bool)
    (tc : TableConfig) : SyncTableOutcome :=
  if !tc.replicate then SyncTableOutcome.notReplicated
  else if !tableExistsOnReplica && !createMissingTables then
    SyncTableOutcome.missingNoCreate
  else if tc.sync_mode = "full" then SyncTableOutcome.fullSync
  else if tc.sync_mode = "incremental" then
    match tc.timestamp_column with
    | none => SyncTableOutcome.warnedNoTimestampColumn
    | some _ => SyncTableOutcome.incrementalSync
  else SyncTableOutcome.unknownMode

/-- Construction of a `TableConfig` by `_parse_schemas_config`
(enhanced_replication_manager.py lines 97-114): the parser copies the fields
through unconditionally — it has no failure path and performs no validation
of `sync_mode` against `timestamp_column`. -/
def parse_table_config (table_name primary_key : String) (replicate : Bool)
    (sync_mode : String) (timestamp_column : Option String) : TableConfig :=
  { table_name := table_name
    primary_key := primary_key
    replicate := replicate
    sync_mode := sync_mode
    timestamp_column := timestamp_column }

/-- Units visited by each tick of `_sync_replica`
(enhanced_replication_manager.py lines 584-587): every tick recomputes the
same set from the configuration — all tables of all schemas whose `replicate`
flag is set.  There is no exclusion state. -/
def scheduled_units (schemas : List SchemaConfig) : List TableConfig :=
  (schemas.flatMap SchemaConfig.tables).filter (fun tc => tc.replicate)

/-- Outcome of one `_sync_table` call in a sync cycle: the body is wrapped in
a try whose handler (lines 571-573) logs and does not re-raise, so the call
always returns. -/
inductive SyncAttempt
  | skippedNotReplicated
  | succeeded
  | failedLogged
deriving DecidableEq, Repr

/-- One `_sync_table` call under a failure oracle `failsAt`. -/
def sync_table_call (failsAt : TableConfig → Bool) (tc : TableConfig) : SyncAttempt :=
  if !tc.replicate then SyncAttempt.skippedNotReplicated
  else if failsAt tc then SyncAttempt.failedLogged
  else SyncAttempt.succeeded

/-- The per-table loop of one sync cycle for one replica
(enhanced_replication_manager.py lines 584-587): `_sync_table` is invoked for
every replicated unit; since `_sync_table` swallows exceptions, the loop is
never cut short by a failing unit. -/
def sync_replica_tables (failsAt : TableConfig → Bool)
    (schemas : List SchemaConfig) : List (TableConfig × SyncAttempt) :=
  (schemas.flatMap SchemaConfig.tables).filterMap (fun tc =>
    if tc.replicate then some (tc, sync_table_call failsAt tc) else none)

/-- The table-creation sweep of `_setup_replica_database`
(enhanced_replication_manager.py lines 352-364) under a failure oracle:
for each replicated unit whose table is absent, `_create_table_from_master`
is executed; it re-raises on failure (lines 339-341) and the enclosing
handler re-raises too (lines 362-364), so a failing CREATE TABLE aborts the
sweep: the remaining tables are not processed.  Returns the tables whose
creation was attempted and whether the pass raised. -/
def setup_tables_pass (tableExists ddlFails : TableConfig → Bool)
    (createMissingTables : Bool) :
    List TableConfig → List TableConfig × Bool
  | [] => ([], false)
  | tc :: rest =>
      if tc.replicate && createMissingTables && !(tableExists tc) then
        if ddlFails tc then ([tc], true)
        else
          let p := setup_tables_pass tableExists ddlFails createMissingTables rest
          (tc :: p.1, p.2)
      else
        setup_tables_pass tableExists ddlFails createMissingTables rest

/-- Statement-level model of `_merge_data` for a non-empty batch
(enhanced_replication_manager.py lines 407-477).  The identity probe
(lines 419-426) is wrapped in a bare `try/except: pass`: its failure is
swallowed and `has_identity` stays False.  Then, linearly: SET IDENTITY_INSERT
ON when `has_identity` (line 430), staging-table creation (line 434),
batched bulk insert (line 450), the MERGE (line 467), DROP TABLE (line 468)
and SET IDENTITY_INSERT OFF (line 471); a failure of any of these propagates
immediately (handler at lines 475-477 re-raises), skipping everything after
it — in particular the DROP runs only when the MERGE succeeded.  Returns the
statements that executed successfully and whether the attempt raised. -/
def merge_data_stmts (fails : Stmt → Bool) (pkIsIdentity : Bool) :
    List Stmt × Bool :=
  let hasIdentity := if fails Stmt.probeIdentity then false else pkIsIdentity
  let probeRun := if fails Stmt.probeIdentity then [] else [Stmt.probeIdentity]
  let body :=
    (if hasIdentity then [Stmt.identityOn] else [])
      ++ [Stmt.createStaging, Stmt.bulkInsert]
      ++ Stmt.mergeStmt :: Stmt.dropStaging
      :: (if hasIdentity then [Stmt.identityOff] else [])
  let r := runSeq fails body
  (probeRun ++ r.1, r.2)

/-- Model of `_create_database` (enhanced_replication_manager.py lines
179-191): `CREATE DATABASE` is emitted only when `_database_exists` says the
database is absent. -/
def create_database (st : ReplicaState) : ReplicaState × List DDL :=
  if st.dbExists then (st, [])
  else ({ st with dbExists := true }, [DDL.createDatabase])

/-- Model of `_create_schema` (enhanced_replication_manager.py lines
204-216): `CREATE SCHEMA` is emitted only when the name differs from `dbo`
and `_schema_exists` says it is absent. -/
def create_schema (st : ReplicaState) (name : String) : ReplicaState × List DDL :=
  if name ≠ "dbo" ∧ name ∉ st.schemas then
    ({ st with schemas := name :: st.schemas }, [DDL.createSchema name])
  else (st, [])

/-- The per-schema table loop of `_setup_replica_database` (lines 357-360):
for each replicated unit, when table creation is enabled and `_table_exists`
says the table is absent, `_create_table_from_master` creates it from the
master structure. -/
def setup_tables (flags : SetupFlags) (schemaName : String) :
    List TableConfig → ReplicaState → ReplicaState × List DDL
  | [], st => (st, [])
  | tc :: rest, st =>
      if tc.replicate ∧ flags.createMissingTables
          ∧ (schemaName, tc.table_name) ∉ st.tables then
        let st1 := { st with tables := (schemaName, tc.table_name) :: st.tables }
        let p := setup_tables flags schemaName rest st1
        (p.1, DDL.createTable schemaName tc.table_name :: p.2)
      else setup_tables flags schemaName rest st

/-- The schema loop of `_setup_replica_database` (lines 352-360). -/
def setup_schemas (flags : SetupFlags) :
    List SchemaConfig → ReplicaState → ReplicaState × List DDL
  | [], st => (st, [])
  | sc :: rest, st =>
      let p1 := if flags.createMissingSchemas then create_schema st sc.schema_name
        else (st, [])
      let p2 := setup_tables flags sc.schema_name sc.tables p1.1
      let p3 := setup_schemas flags rest p2.1
      (p3.1, p1.2 ++ p2.2 ++ p3.2)

/-- Model of `_setup_replica_database` (enhanced_replication_manager.py lines
343-364) on the happy path (all probes and DDL succeed): ensure the target
database when `auto_setup_replicas`, then for each configured schema ensure
the schema namespace (gated by `create_missing_schemas`) and the replicated
tables (gated by `create_missing_tables`).  Returns the resulting replica
state and the DDL statements executed. -/
def setup_replica_database (flags : SetupFlags) (schemas : List SchemaConfig)
    (st : ReplicaState) : ReplicaState × List DDL :=
  let p1 := if flags.autoSetupReplicas then create_database st else (st, [])
  let p2 := setup_schemas flags schemas p1.1
  (p2.1, p1.2 ++ p2.2)

/-- Catalog state in which every existence probe of
`_setup_replica_database` short-circuits its creation step: the target
database exists when `auto_setup_replicas` would create it, every configured
schema namespace exists (or is `dbo`) when `create_missing_schemas` would
create it, and every replicated table exists when `create_missing_tables`
would create it. -/
def BootstrapReady (flags : SetupFlags) (schemas : List SchemaConfig)
    (st : ReplicaState) : Prop :=
  (flags.autoSetupReplicas = true → st.dbExists = true)
  ∧ (∀ sc ∈ schemas, flags.createMissingSchemas = true →
      sc.schema_name = "dbo" ∨ sc.schema_name ∈ st.schemas)
  ∧ (∀ sc ∈ schemas, ∀ tc ∈ sc.tables,
      tc.replicate = true → flags.createMissingTables = true →
      (sc.schema_name, tc.table_name) ∈ st.tables)

end Enhanced

namespace Raw

/-- The retry loop of `execute_query_with_retry`
(raw_replication_manager.py lines 212-308).  `outcome i` is what the i-th
attempt does (`attempt` in the source, 0-based); `remaining` counts the loop
iterations left out of `retry_attempts`.  A `pyodbc.Error` on a non-final
attempt evicts the pooled connection and sleeps
`retry_delay * (attempt + 1)` (line 296); any other exception on a non-final
attempt sleeps `retry_delay` (line 306); on the final attempt the error is
re-raised (lines 301, 308). -/
def retry_go {α : Type} (retryDelay : Nat) (outcome : Nat → AttemptOutcome α) :
    Nat → Nat → RetryTrace α
  | _, 0 => { attemptsMade := 0, sleeps := [], result := RetryOutcome.fellThrough }
  | attempt, remaining + 1 =>
      match outcome attempt with
      | AttemptOutcome.ok v =>
          { attemptsMade := 1, sleeps := [], result := RetryOutcome.returned v }
      | AttemptOutcome.dbError c =>
          if remaining = 0 then
            { attemptsMade := 1, sleeps := [], result := RetryOutcome.raisedDbError c }
          else
            let rest := retry_go retryDelay outcome (attempt + 1) remaining
            { attemptsMade := rest.attemptsMade + 1
              sleeps := retryDelay * (attempt + 1) :: rest.sleeps
              result := rest.result }
      | AttemptOutcome.otherError =>
          if remaining = 0 then
            { attemptsMade := 1, sleeps := [], result := RetryOutcome.raisedOther }
          else
            let rest := retry_go retryDelay outcome (attempt + 1) remaining
            { attemptsMade := rest.attemptsMade + 1
              sleeps := retryDelay :: rest.sleeps
              result := rest.result }

/-- Model of `execute_query_with_retry` (raw_replication_manager.py lines
202-308): run up to `retryAttempts` attempts starting at attempt 0. -/
def execute_query_with_retry {α : Type} (retryAttempts retryDelay : Nat)
    (outcome : Nat → AttemptOutcome α) : RetryTrace α :=
  retry_go retryDelay outcome 0 retryAttempts

/-- Column metadata as consumed by `build_create_table_script`, mirroring the
tuple positions COLUMN_NAME, DATA_TYPE, CHARACTER_MAXIMUM_LENGTH,
NUMERIC_PRECISION, NUMERIC_SCALE, IS_NULLABLE = YES, IS_IDENTITY = 1,
COLUMN_DEFAULT (raw_replication_manager.py lines 504-512). -/
structure ColumnInfo where
  name : String
  dtype : String
  maxLen : Option Int
  precision : Option Nat
  scale : Option Nat
  isNullableYes : Bool
  isIdentityOne : Bool
  defaultExpr : Option String
deriving DecidableEq, Repr

/-- Rendering of one column definition (raw_replication_manager.py lines
514-533): character types render `(max)` for length -1 or absent, otherwise
the explicit length; decimal and numeric default to `(18,2)` when precision
is absent, otherwise `(precision, scale or 0)`; identity columns append
`IDENTITY(1,1)`; nullability is always rendered; a non-empty default
expression is appended. -/
def columnDef (c : ColumnInfo) : String :=
  let typ :=
    if c.dtype = "varchar" ∨ c.dtype = "nvarchar" ∨ c.dtype = "char" ∨ c.dtype = "nchar" then
      match c.maxLen with
      | none => c.dtype ++ "(max)"
      | some len =>
          if len = -1 then c.dtype ++ "(max)"
          else c.dtype ++ "(" ++ toString len ++ ")"
    else if c.dtype = "decimal" ∨ c.dtype = "numeric" then
      match c.precision with
      | none => c.dtype ++ "(18,2)"
      | some p => c.dtype ++ "(" ++ toString p ++ "," ++ toString (c.scale.getD 0) ++ ")"
    else c.dtype
  let line0 := "[" ++ c.name ++ "] " ++ typ
  let line1 := if c.isIdentityOne then line0 ++ " IDENTITY(1,1)" else line0
  let line2 := if c.isNullableYes then line1 ++ " NULL" else line1 ++ " NOT NULL"
  match c.defaultExpr with
  | none => line2
  | some dflt => line2 ++ " DEFAULT " ++ dflt

/-- Model of `build_create_table_script` (raw_replication_manager.py lines
500-546).  `now` is `int(time.time())` at the moment of the call: when the
primary-key column list is non-empty, the constraint name
`PK_schema_table_now` embeds the current epoch second (line 538). -/
def build_create_table_script (columns : List ColumnInfo) (pkColumns : List String)
    (schema table : String) (now : Nat) : String :=
  let colDefs := String.intercalate ", " (columns.map columnDef)
  let pkSql :=
    if pkColumns.isEmpty then ""
    else
      let pkCols := String.intercalate "," (pkColumns.map (fun c => "[" ++ c ++ "]"))
      ", CONSTRAINT [PK_" ++ schema ++ "_" ++ table ++ "_" ++ toString now
        ++ "] PRIMARY KEY (" ++ pkCols ++ ")"
  "CREATE TABLE [" ++ schema ++ "].[" ++ table ++ "] (" ++ colDefs ++ pkSql ++ ")"

end Raw

theorem findRow_eq_of_nodup {K V : Type} [DecidableEq K] (source : Table K V)
    (hs : (keysOf source).Nodup) (s : Row K V) (hmem : s ∈ source) :
    findRow source s.key = some s := by
  induction source with
  | nil => cases hmem
  | cons a l ih =>
    rw [keysOf, List.map_cons, List.nodup_cons] at hs
    rcases List.mem_cons.mp hmem with h | h
    · subst h
      exact List.find?_cons_of_pos _ (by simp)
    · have hne : ¬ (a.key = s.key) := fun hk =>
        hs.1 (hk ▸ List.mem_map_of_mem Row.key h)
      rw [findRow, List.find?_cons_of_neg _ (by simp [hne])]
      exact ih hs.2 h

theorem filter_key_eq_of_nodup {K V : Type} [DecidableEq K] (source : Table K V)
    (hs : (keysOf source).Nodup) (s : Row K V) (hmem : s ∈ source) :
    source.filter (fun r => decide (r.key = s.key)) = [s] := by
  induction source with
  | nil => cases hmem
  | cons a l ih =>
    rw [keysOf, List.map_cons, List.nodup_cons] at hs
    rcases List.mem_cons.mp hmem with h | h
    · subst h
      rw [List.filter_cons_of_pos (by simp)]
      have hnil : l.filter (fun r => decide (r.key = s.key)) = [] := by
        rw [List.filter_eq_nil_iff]
        intro r hr hkey
        rw [decide_eq_true_eq] at hkey
        exact hs.1 (hkey ▸ List.mem_map_of_mem Row.key hr)
      rw [hnil]
    · have hne : ¬ (a.key = s.key) := fun hk =>
        hs.1 (hk ▸ List.mem_map_of_mem Row.key h)
      rw [List.filter_cons_of_neg (by simp [hne])]
      exact ih hs.2 h

theorem filter_key_eq_nil_of_not_mem {K V : Type} [DecidableEq K]
    (t : Table K V) (k : K) (hk : k ∉ keysOf t) :
    t.filter (fun r => decide (r.key = k)) = [] := by
  rw [List.filter_eq_nil_iff]
  intro r hr hkey
  rw [decide_eq_true_eq] at hkey
  exact hk (hkey ▸ List.mem_map_of_mem Row.key hr)

theorem filter_updated_part {K V : Type} [DecidableEq K] (d : Bool)
    (source : Table K V) (k : K) (s0 : Row K V) (hfind : findRow source k = some s0)
    (target : Table K V) :
    (target.filterMap (mergeUpdateRow d source)).filter (fun r => decide (r.key = k))
      = (target.filter (fun r => decide (r.key = k))).map (fun r => ⟨r.key, s0.vals⟩) := by
  induction target with
  | nil => rfl
  | cons r t ih =>
    rw [List.filterMap_cons]
    by_cases hk : r.key = k
    · have hfr : findRow source r.key = some s0 := by rw [hk]; exact hfind
      rw [mergeUpdateRow, hfr]
      rw [List.filter_cons_of_pos (by simp [hk]),
        List.filter_cons_of_pos (by simp [hk]), List.map_cons, ih, hk]
    · rw [List.filter_cons_of_neg (by simp [hk])]
      rw [mergeUpdateRow]
      cases hsrc : findRow source r.key with
      | some s =>
        rw [List.filter_cons_of_neg (by simp [hk])]
        exact ih
      | none =>
        cases d with
        | true => exact ih
        | false =>
          rw [if_neg (by simp)]
          rw [List.filter_cons_of_neg (by simp [hk])]
          exact ih

theorem filter_inserted_part {K V : Type} [DecidableEq K]
    (target source : Table K V) (k : K) :
    (source.filter (fun s => !(target.any (fun r => decide (r.key = s.key))))).filter
        (fun r => decide (r.key = k))
      = if k ∈ keysOf target then []
        else source.filter (fun r => decide (r.key = k)) := by
  rw [List.filter_filter]
  by_cases hmem : k ∈ keysOf target
  · rw [if_pos hmem]
    rw [List.filter_eq_nil_iff]
    intro s _ hpred
    rw [Bool.and_eq_true, decide_eq_true_eq] at hpred
    obtain ⟨hkey, hnoty⟩ := hpred
    rw [Bool.not_eq_true', List.any_eq_false] at hnoty
    obtain ⟨r0, hr0mem, hr0key⟩ := List.mem_map.mp hmem
    have hno := hnoty r0 hr0mem
    rw [hkey] at hno
    exact hno (by simp [hr0key])
  · rw [if_neg hmem]
    refine List.filter_congr ?_
    intro s hsmem
    by_cases hk : s.key = k
    · have hall : ∀ x ∈ target, ¬x.key = k := by
        intro r hr hrk
        exact hmem (hrk ▸ List.mem_map_of_mem Row.key hr)
      simp only [hk]
      simp
      exact hall
    · simp [hk]

/-- C1: for every batch row `s` of a fetched batch `source` (one row per
primary-key value, as fetched from a primary-keyed table) merged into a
replica table `target` whose primary-key values are unique, the single MERGE
upsert issued by `Enhanced._merge_data` / `Orchestrator._apply_to_replica`,
joined on the primary-key column, leaves the target with exactly one row
whose key is `s`'s primary-key value, and that row's non-key columns equal
the batch's values: matched rows have all non-key columns updated,
unmatched-by-target rows are inserted with all columns. -/
theorem C1_merge_upsert_exactly_one_row {K V : Type} [DecidableEq K] (d : Bool)
    (target source : Table K V)
    (ht : (keysOf target).Nodup) (hs : (keysOf source).Nodup)
    (s : Row K V) (hmem : s ∈ source) :
    (mergeTable d target source).filter (fun r => decide (r.key = s.key))
      = [⟨s.key, s.vals⟩] := by
  have hfind : findRow source s.key = some s := findRow_eq_of_nodup source hs s hmem
  rw [mergeTable, List.filter_append,
    filter_updated_part d source s.key s hfind target,
    filter_inserted_part target source s.key]
  by_cases hk : s.key ∈ keysOf target
  · obtain ⟨r0, hr0mem, hr0key⟩ := List.mem_map.mp hk
    have hfilt := filter_key_eq_of_nodup target ht r0 hr0mem
    rw [hr0key] at hfilt
    rw [hfilt, if_pos hk, List.map_cons, List.map_nil, List.append_nil, hr0key]
  · rw [filter_key_eq_nil_of_not_mem target s.key hk, if_neg hk,
      filter_key_eq_of_nodup source hs s hmem, List.map_nil, List.nil_append]

/-- Witness for C1: merging the batch with keys 2 (update) and 3 (insert)
into a target holding keys 1 and 2 leaves exactly one row with key 2,
carrying the batch's value 99. -/
theorem C1_witness :
    ((keysOf [(⟨1, 10⟩ : Row Nat Nat), ⟨2, 20⟩]).Nodup
        ∧ (keysOf [(⟨2, 99⟩ : Row Nat Nat), ⟨3, 30⟩]).Nodup
        ∧ (⟨2, 99⟩ : Row Nat Nat) ∈ [(⟨2, 99⟩ : Row Nat Nat), ⟨3, 30⟩])
    ∧ (mergeTable false [(⟨1, 10⟩ : Row Nat Nat), ⟨2, 20⟩]
          [(⟨2, 99⟩ : Row Nat Nat), ⟨3, 30⟩]).filter
        (fun r => decide (r.key = 2)) = [⟨2, 99⟩] :=
  ⟨⟨by decide, by decide, by decide⟩,
    C1_merge_upsert_exactly_one_row false [⟨1, 10⟩, ⟨2, 20⟩] [⟨2, 99⟩, ⟨3, 30⟩]
      (by decide) (by decide) ⟨2, 99⟩ (by decide)⟩

theorem mem_mergeTable_unmatched {K V : Type} [DecidableEq K] (d : Bool)
    (target source : Table K V) (r : Row K V)
    (hr : r ∈ target) (hk : r.key ∉ keysOf source) :
    r ∈ mergeTable d target source ↔ d = false := by
  have hfind : findRow source r.key = none := by
    rw [findRow, List.find?_eq_none]
    intro a ha
    simp only [decide_eq_true_eq]
    intro hak
    exact hk (hak ▸ List.mem_map_of_mem Row.key ha)
  constructor
  · intro hmem
    rcases List.mem_append.mp hmem with hleft | hright
    · obtain ⟨r', hr'mem, hr'eq⟩ := List.mem_filterMap.mp hleft
      rw [mergeUpdateRow] at hr'eq
      cases hsrc : findRow source r'.key with
      | some s =>
        rw [hsrc] at hr'eq
        have hkey : (⟨r'.key, s.vals⟩ : Row K V) = r := Option.some.inj hr'eq
        rw [findRow] at hsrc
        have hs_mem := List.mem_of_find?_eq_some hsrc
        have hs_key : s.key = r'.key := by
          have hfs := List.find?_some hsrc
          rwa [decide_eq_true_eq] at hfs
        exfalso
        apply hk
        have hrk : r.key = r'.key := by rw [← hkey]
        rw [hrk, ← hs_key]
        exact List.mem_map_of_mem Row.key hs_mem
      | none =>
        rw [hsrc] at hr'eq
        cases d with
        | true => simp at hr'eq
        | false => rfl
    · exfalso
      have hsrcmem : r ∈ source := List.mem_of_mem_filter hright
      exact hk (List.mem_map_of_mem Row.key hsrcmem)
  · intro hd
    subst hd
    refine List.mem_append.mpr (Or.inl ?_)
    refine List.mem_filterMap.mpr ⟨r, hr, ?_⟩
    rw [mergeUpdateRow, hfind]
    rfl

/-- Counterexample for C2: with mode `full`, the enhanced engine's
`_sync_table_full` removes the target row with key 1 — whose key is absent
from the fetched batch — even though the engine never consults any
`replicate_deletes` flag (the flag does not occur in
enhanced_replication_manager.py), so the row is deleted also when the flag
is unset, contradicting "deleted ... only if the global replicate_deletes
flag is set". -/
theorem C2_counterexample :
    Enhanced.sync_table_full [(⟨1, 10⟩ : Row Nat Nat)] [(⟨2, 20⟩ : Row Nat Nat)]
        = [(⟨2, 20⟩ : Row Nat Nat)]
      ∧ (⟨1, 10⟩ : Row Nat Nat) ∉
          Enhanced.sync_table_full [(⟨1, 10⟩ : Row Nat Nat)] [(⟨2, 20⟩ : Row Nat Nat)] := by
  decide

/-- C2 (amended): in the orchestrator engine a target row whose primary-key
value is absent from the fetched batch survives the sync exactly when it is
not the case that `replicate_deletes` is set and the mode is `full` — in
particular incremental mode never deletes there; in the enhanced engine,
however, a full-mode sync clears the target unconditionally, so such a row is
removed regardless of any flag. -/
theorem C2_amended_unmatched_row_policy {K V : Type} [DecidableEq K]
    (rd : Bool) (m : SyncMode) (target source : Table K V)
    (r : Row K V) (hr : r ∈ target) (hk : r.key ∉ keysOf source) :
    (r ∈ Orchestrator.apply_to_replica_merge rd m target source
        ↔ ¬(rd = true ∧ m = SyncMode.full))
    ∧ r ∉ Enhanced.sync_table_full target source := by
  constructor
  · rw [Orchestrator.apply_to_replica_merge,
      mem_mergeTable_unmatched (rd && (m == SyncMode.full)) target source r hr hk]
    cases rd <;> cases m <;> simp
  · intro hmem
    rw [Enhanced.sync_table_full] at hmem
    by_cases hempty : source.isEmpty
    · simp only [hempty, if_pos] at hmem
      cases hmem
    · simp only [hempty, Bool.false_eq_true, if_neg, not_false_iff] at hmem
      rcases List.mem_append.mp hmem with hleft | hright
      · rw [List.filterMap_nil] at hleft
        cases hleft
      · exact hk (List.mem_map_of_mem Row.key (List.mem_of_mem_filter hright))

/-- Witness for C2 (amended): target row key 1, batch key 2,
`replicate_deletes` unset, mode `full`: the row survives the orchestrator
sync and is removed by the enhanced sync. -/
theorem C2_witness :
    ((⟨1, 10⟩ : Row Nat Nat) ∈ [(⟨1, 10⟩ : Row Nat Nat)]
        ∧ (⟨1, 10⟩ : Row Nat Nat).key ∉ keysOf [(⟨2, 20⟩ : Row Nat Nat)])
    ∧ (((⟨1, 10⟩ : Row Nat Nat) ∈
          Orchestrator.apply_to_replica_merge false SyncMode.full
            [(⟨1, 10⟩ : Row Nat Nat)] [(⟨2, 20⟩ : Row Nat Nat)]
        ↔ ¬(false = true ∧ SyncMode.full = SyncMode.full))
      ∧ (⟨1, 10⟩ : Row Nat Nat) ∉
          Enhanced.sync_table_full [(⟨1, 10⟩ : Row Nat Nat)] [(⟨2, 20⟩ : Row Nat Nat)]) :=
  ⟨⟨by decide, by decide⟩,
    C2_amended_unmatched_row_policy false SyncMode.full
      [⟨1, 10⟩] [⟨2, 20⟩] ⟨1, 10⟩ (by decide) (by decide)⟩

/-- C3: for an incremental unit whose fetch since the stored watermark
returns no rows, one sync attempt issues no MERGE against the replica and
still advances the (unit, replica) watermark to `now`: the empty fetch is not
an error (the attempt completes normally) and the incremental window is reset
for a quiet table. -/
theorem C3_empty_fetch_advances_watermark {K V κ : Type} [DecidableEq κ]
    (c : String) (tableKey : κ) (lastSyncTimes : List (κ × Nat))
    (fetch : Nat → Table K V) (now : Nat)
    (hempty : fetch ((getLastSync lastSyncTimes tableKey).getD 0) = []) :
    (Enhanced.sync_table_incremental (some c) tableKey
        lastSyncTimes fetch now).mergeIssued = false
    ∧ getLastSync
        (Enhanced.sync_table_incremental (some c) tableKey
            lastSyncTimes fetch now).lastSyncTimes tableKey
        = some now := by
  constructor
  · show (!(fetch ((getLastSync lastSyncTimes tableKey).getD 0)).isEmpty) = false
    rw [hempty]
    rfl
  · show getLastSync (setLastSync lastSyncTimes tableKey now) tableKey = some now
    rw [getLastSync, setLastSync, List.find?_cons_of_pos _ (by simp)]
    rfl

/-- Witness for C3 at a concrete instance: empty watermark store, a fetch
returning no rows, `now` = 42. -/
theorem C3_witness :
    (fun _ : Nat => ([] : Table Nat Nat))
        ((getLastSync ([] : List (String × Nat)) "dbo.Employees.replica1").getD 0) = []
    ∧ ((Enhanced.sync_table_incremental (K := Nat) (V := Nat) (some "UpdatedAt")
          "dbo.Employees.replica1" [] (fun _ => []) 42).mergeIssued = false
      ∧ getLastSync
          (Enhanced.sync_table_incremental (K := Nat) (V := Nat) (some "UpdatedAt")
              "dbo.Employees.replica1" [] (fun _ => []) 42).lastSyncTimes
          "dbo.Employees.replica1" = some 42) :=
  ⟨rfl, C3_empty_fetch_advances_watermark "UpdatedAt" "dbo.Employees.replica1"
    [] (fun _ => []) 42 rfl⟩

/-- Counterexample for C4: in the enhanced engine, when the MERGE statement
fails (and every other statement would succeed), the attempt raises, the
staging table was created, and no DROP of the staging table was executed by
the attempt — the staging table is not absent from the replica at the end of
the failed attempt, contradicting the claim. -/
theorem C4_counterexample :
    (Enhanced.merge_data_stmts (fun s => s == Stmt.mergeStmt) false).2 = true
    ∧ Stmt.createStaging ∈ (Enhanced.merge_data_stmts (fun s => s == Stmt.mergeStmt) false).1
    ∧ Stmt.dropStaging ∉ (Enhanced.merge_data_stmts (fun s => s == Stmt.mergeStmt) false).1 := by
  decide

/-- C4 (amended): in the orchestrator engine the staging-table drop sits in a
finally block, so a drop is executed at the end of every attempt whether the
body succeeded or failed (provided the drop statement itself does not fail);
in the enhanced engine the drop is an ordinary statement placed after the
MERGE, so an attempt whose MERGE fails never executes the drop and leaves the
staging table behind. -/
theorem C4_amended_staging_drop (fails : Stmt → Bool) (dataEmpty pkIsIdentity : Bool)
    (hdrop : fails Stmt.dropStaging = false) :
    Stmt.dropStaging ∈ Orchestrator.apply_to_replica_stmts fails dataEmpty
    ∧ (fails Stmt.mergeStmt = true →
        Stmt.dropStaging ∉ (Enhanced.merge_data_stmts fails pkIsIdentity).1) := by
  constructor
  · rw [Orchestrator.apply_to_replica_stmts]
    simp [hdrop]
  · intro hmerge hmem
    simp only [Enhanced.merge_data_stmts] at hmem
    by_cases hprobe : fails Stmt.probeIdentity
    · simp only [hprobe, if_pos, if_true, List.nil_append] at hmem
      by_cases h1 : fails Stmt.createStaging <;>
        by_cases h2 : fails Stmt.bulkInsert <;>
          simp [runSeq, h1, h2, hmerge] at hmem
    · cases pkIsIdentity with
      | false =>
        simp only [hprobe, if_neg, if_false, Bool.false_eq_true, not_false_iff] at hmem
        rw [List.mem_append] at hmem
        rcases hmem with hmem | hmem
        · simp at hmem
        · by_cases h1 : fails Stmt.createStaging <;>
            by_cases h2 : fails Stmt.bulkInsert <;>
              simp [runSeq, h1, h2, hmerge] at hmem
      | true =>
        simp only [hprobe, if_neg, if_false, Bool.false_eq_true, not_false_iff] at hmem
        rw [List.mem_append] at hmem
        rcases hmem with hmem | hmem
        · simp at hmem
        · by_cases h0 : fails Stmt.identityOn <;>
            by_cases h1 : fails Stmt.createStaging <;>
              by_cases h2 : fails Stmt.bulkInsert <;>
                simp [runSeq, h0, h1, h2, hmerge] at hmem

/-- Witness for C4 (amended): only the MERGE fails; the orchestrator attempt
still executes the drop, the enhanced attempt does not. -/
theorem C4_witness :
    ((fun s => s == Stmt.mergeStmt) Stmt.dropStaging = false)
    ∧ (Stmt.dropStaging ∈
        Orchestrator.apply_to_replica_stmts (fun s => s == Stmt.mergeStmt) false
      ∧ ((fun s => s == Stmt.mergeStmt) Stmt.mergeStmt = true →
          Stmt.dropStaging ∉
            (Enhanced.merge_data_stmts (fun s => s == Stmt.mergeStmt) false).1)) :=
  ⟨by decide, C4_amended_staging_drop (fun s => s == Stmt.mergeStmt) false false (by decide)⟩

/-- Counterexample for C6: during the replica bootstrap pass, a DDL failure
creating the first table (`Orders`) aborts the sweep — the second table
(`Employees`) of the same replica is never processed and the exception
propagates (in `start`, lines 652-657, it then terminates the process via
`sys.exit(1)`), contradicting "a DDL failure creating one table is logged and
does not abort the processing of the other tables of the same replica". -/
theorem C6_counterexample :
    Enhanced.setup_tables_pass (fun _ => false)
        (fun tc => tc.table_name == "Orders") true
        [⟨"Orders", "OrderID", true, "full", none⟩,
          ⟨"Employees", "EmployeeID", true, "full", none⟩]
      = ([⟨"Orders", "OrderID", true, "full", none⟩], true) := by
  decide

/-- C6 (amended): during a sync cycle, failures are contained per
(table, replica) pair — `_sync_table` swallows exceptions, so every
replicated unit of every schema is attempted regardless of which units fail;
during the bootstrap pass, however, a DDL failure creating one table aborts
the sweep at the failing table, leaving the remaining tables unprocessed and
raising out of `_setup_replica_database` (process-fatal at startup). -/
theorem C6_amended_failure_containment :
    (∀ (failsAt : TableConfig → Bool) (schemas : List SchemaConfig),
        (Enhanced.sync_replica_tables failsAt schemas).map Prod.fst
          = Enhanced.scheduled_units schemas)
    ∧ (∀ (tableExists ddlFails : TableConfig → Bool) (tc : TableConfig)
          (rest : List TableConfig),
        tc.replicate = true → tableExists tc = false → ddlFails tc = true →
          Enhanced.setup_tables_pass tableExists ddlFails true (tc :: rest)
            = ([tc], true)) := by
  constructor
  · intro failsAt schemas
    rw [Enhanced.sync_replica_tables, Enhanced.scheduled_units]
    generalize (schemas.flatMap SchemaConfig.tables) = l
    induction l with
    | nil => rfl
    | cons tc rest ih =>
      by_cases hrep : tc.replicate
      · simp [List.filterMap_cons, List.filter_cons, hrep, ih]
      · simp [List.filterMap_cons, List.filter_cons, hrep, ih]
  · intro tableExists ddlFails tc rest h1 h2 h3
    rw [Enhanced.setup_tables_pass]
    simp [h1, h2, h3]

/-- Counterexample for C9: the unit `Employees`, configured with
`sync_mode = "incremental"` and no `timestamp_column`, is accepted by the
configuration parser (which has no failure path), appears in the per-tick
scheduling set recomputed from the configuration (so it is retried every
tick, never permanently excluded), and its sync attempt merely warn-skips —
it is neither rejected at startup nor run as a full sync. -/
theorem C9_counterexample :
    Enhanced.parse_table_config "Employees" "EmployeeID" true "incremental" none
      = (⟨"Employees", "EmployeeID", true, "incremental", none⟩ : TableConfig)
    ∧ (⟨"Employees", "EmployeeID", true, "incremental", none⟩ : TableConfig)
        ∈ Enhanced.scheduled_units
            [⟨"dbo", [⟨"Employees", "EmployeeID", true, "incremental", none⟩]⟩]
    ∧ Enhanced.sync_table_outcome true true
        ⟨"Employees", "EmployeeID", true, "incremental", none⟩
      = Enhanced.SyncTableOutcome.warnedNoTimestampColumn
    ∧ Enhanced.sync_table_outcome true true
        ⟨"Employees", "EmployeeID", true, "incremental", none⟩
      ≠ Enhanced.SyncTableOutcome.fullSync := by
  decide

/-- C9 (amended): a replicated unit whose mode is incremental but whose
`timestamp_column` is absent is accepted by the configuration parser, stays
in the scheduling set of every tick, and each sync attempt logs a warning and
returns without syncing — the unit neither falls back to full mode nor is
rejected at startup nor permanently excluded from scheduling. -/
theorem C9_amended_missing_timestamp_warn_skip (tex cmt : Bool) (tc : TableConfig)
    (h1 : tc.replicate = true) (h2 : tc.sync_mode = "incremental")
    (h3 : tc.timestamp_column = none) (h4 : tex = true ∨ cmt = true) :
    Enhanced.sync_table_outcome tex cmt tc
        = Enhanced.SyncTableOutcome.warnedNoTimestampColumn
    ∧ (∀ (schemas : List SchemaConfig), ∀ sc ∈ schemas, tc ∈ sc.tables →
        tc ∈ Enhanced.scheduled_units schemas) := by
  constructor
  · rw [Enhanced.sync_table_outcome]
    have hmode : ¬ (tc.sync_mode = "full") := by rw [h2]; decide
    rcases h4 with h4 | h4 <;>
      simp [h1, h2, h3, h4, hmode]
  · intro schemas sc hsc htc
    rw [Enhanced.scheduled_units]
    rw [List.mem_filter]
    constructor
    · exact List.mem_flatMap.mpr ⟨sc, hsc, htc⟩
    · rw [h1]

/-- Witness for C9 (amended) at the concrete `Employees` unit. -/
theorem C9_witness :
    ((⟨"Employees", "EmployeeID", true, "incremental", none⟩ : TableConfig).replicate = true
      ∧ (⟨"Employees", "EmployeeID", true, "incremental", none⟩ : TableConfig).sync_mode
          = "incremental"
      ∧ (⟨"Employees", "EmployeeID", true, "incremental", none⟩ : TableConfig).timestamp_column
          = none
      ∧ (true = true ∨ true = true))
    ∧ (Enhanced.sync_table_outcome true true
          ⟨"Employees", "EmployeeID", true, "incremental", none⟩
        = Enhanced.SyncTableOutcome.warnedNoTimestampColumn
      ∧ (∀ (schemas : List SchemaConfig), ∀ sc ∈ schemas,
          (⟨"Employees", "EmployeeID", true, "incremental", none⟩ : TableConfig) ∈ sc.tables →
            (⟨"Employees", "EmployeeID", true, "incremental", none⟩ : TableConfig)
              ∈ Enhanced.scheduled_units schemas)) :=
  ⟨⟨by decide, by decide, by decide, Or.inl rfl⟩,
    C9_amended_missing_timestamp_warn_skip true true
      ⟨"Employees", "EmployeeID", true, "incremental", none⟩
      (by decide) (by decide) (by decide) (Or.inl rfl)⟩

theorem mem_runSeq {fails : Stmt → Bool} {l : List Stmt} {s : Stmt}
    (h : s ∈ (runSeq fails l).1) : s ∈ l := by
  induction l with
  | nil => cases h
  | cons a rest ih =>
    simp only [runSeq] at h
    by_cases hf : fails a
    · rw [if_pos hf] at h
      cases h
    · rw [if_neg hf] at h
      rcases List.mem_cons.mp h with h1 | h1
      · exact List.mem_cons.mpr (Or.inl h1)
      · exact List.mem_cons.mpr (Or.inr (ih h1))

theorem runSeq_all_ok {fails : Stmt → Bool} {l : List Stmt}
    (h : ∀ s ∈ l, fails s = false) : runSeq fails l = (l, false) := by
  induction l with
  | nil => rfl
  | cons a rest ih =>
    rw [runSeq, if_neg (by rw [h a (List.mem_cons_self a rest)]; exact Bool.false_ne_true),
      ih (fun s hs => h s (List.mem_cons.mpr (Or.inr hs)))]

/-- C10: when the probe checking whether the target primary-key column is an
identity column raises, `_merge_data` swallows the exception and proceeds
exactly as if the column were not an identity column: the attempt's behavior
is identical to the non-identity case, identity insert is never enabled, and
the probe failure alone never makes the merge attempt fail (if every other
statement succeeds, the attempt completes without raising). -/
theorem C10_identity_probe_failure_swallowed (fails : Stmt → Bool)
    (pkIsIdentity : Bool) (hp : fails Stmt.probeIdentity = true) :
    Enhanced.merge_data_stmts fails pkIsIdentity
        = Enhanced.merge_data_stmts fails false
    ∧ Stmt.identityOn ∉ (Enhanced.merge_data_stmts fails pkIsIdentity).1
    ∧ ((∀ s, s ≠ Stmt.probeIdentity → fails s = false) →
        (Enhanced.merge_data_stmts fails pkIsIdentity).2 = false) := by
  refine ⟨?_, ?_, ?_⟩
  · rw [Enhanced.merge_data_stmts, Enhanced.merge_data_stmts]
    simp [hp]
  · intro hmem
    simp only [Enhanced.merge_data_stmts, hp, if_true, List.nil_append] at hmem
    have hbody := mem_runSeq hmem
    simp at hbody
  · intro hok
    simp only [Enhanced.merge_data_stmts, hp, if_true]
    rw [runSeq_all_ok (fun s hs => hok s (by
      intro hcontra
      subst hcontra
      simp at hs))]

/-- Witness for C10: the probe fails, everything else succeeds; the attempt
equals the non-identity attempt, never enables identity insert, and does not
fail. -/
theorem C10_witness :
    ((fun s => s == Stmt.probeIdentity) Stmt.probeIdentity = true)
    ∧ (Enhanced.merge_data_stmts (fun s => s == Stmt.probeIdentity) true
          = Enhanced.merge_data_stmts (fun s => s == Stmt.probeIdentity) false
      ∧ Stmt.identityOn ∉
          (Enhanced.merge_data_stmts (fun s => s == Stmt.probeIdentity) true).1
      ∧ ((∀ s, s ≠ Stmt.probeIdentity → (fun s => s == Stmt.probeIdentity) s = false) →
          (Enhanced.merge_data_stmts (fun s => s == Stmt.probeIdentity) true).2 = false)) :=
  ⟨by decide,
    C10_identity_probe_failure_swallowed (fun s => s == Stmt.probeIdentity) true (by decide)⟩

/-- Counterexample for C8: two calls of `build_create_table_script` with
byte-identical column-descriptor, primary-key, schema and table inputs, made
at epoch seconds 0 and 1, produce different output: the primary-key
constraint name embeds `int(time.time())` (line 538), so the function is not
deterministic in the claim's inputs. -/
theorem C8_counterexample :
    Raw.build_create_table_script
        [⟨"EmployeeID", "int", none, none, none, false, false, none⟩]
        ["EmployeeID"] "dbo" "Employees" 0
      ≠ Raw.build_create_table_script
        [⟨"EmployeeID", "int", none, none, none, false, false, none⟩]
        ["EmployeeID"] "dbo" "Employees" 1 := by
  decide

/-- C8 (amended): `build_create_table_script` is deterministic in its inputs
together with the epoch second of the call: two calls with identical inputs
made in the same second produce byte-identical output, and when the
primary-key column list is empty the output does not depend on the clock at
all — the timestamp enters only the primary-key constraint name. -/
theorem C8_amended_deterministic_per_second (columns : List Raw.ColumnInfo)
    (pkColumns : List String) (schema table : String) (t1 t2 : Nat)
    (h : pkColumns = [] ∨ t1 = t2) :
    Raw.build_create_table_script columns pkColumns schema table t1
      = Raw.build_create_table_script columns pkColumns schema table t2 := by
  rcases h with h | h
  · subst h
    simp [Raw.build_create_table_script]
  · rw [h]

/-- Witness for C8 (amended): empty primary-key list, epoch seconds 7 and 9:
identical output. -/
theorem C8_witness :
    (([] : List String) = [] ∨ (7 : Nat) = 9)
    ∧ Raw.build_create_table_script
        [⟨"Name", "nvarchar", some 50, none, none, true, false, none⟩]
        [] "dbo" "Employees" 7
      = Raw.build_create_table_script
        [⟨"Name", "nvarchar", some 50, none, none, true, false, none⟩]
        [] "dbo" "Employees" 9 :=
  ⟨Or.inl rfl,
    C8_amended_deterministic_per_second
      [⟨"Name", "nvarchar", some 50, none, none, true, false, none⟩]
      [] "dbo" "Employees" 7 9 (Or.inl rfl)⟩

theorem retry_go_all_db_fail {α : Type} (d : Nat) (outcome : Nat → AttemptOutcome α)
    (codes : Nat → Nat) (hfail : ∀ i, outcome i = AttemptOutcome.dbError (codes i)) :
    ∀ (r a : Nat),
      (Raw.retry_go d outcome a (r + 1)).attemptsMade = r + 1
      ∧ (Raw.retry_go d outcome a (r + 1)).sleeps
          = (List.range r).map (fun i => d * (a + i + 1))
      ∧ (Raw.retry_go d outcome a (r + 1)).result
          = RetryOutcome.raisedDbError (codes (a + r)) := by
  intro r
  induction r with
  | zero =>
    intro a
    rw [Raw.retry_go, hfail a]
    exact ⟨rfl, rfl, rfl⟩
  | succ r ih =>
    intro a
    have hne : ¬ (r + 1) = 0 := Nat.succ_ne_zero r
    obtain ⟨h1, h2, h3⟩ := ih (a + 1)
    refine ⟨?_, ?_, ?_⟩
    · simp only [Raw.retry_go, hfail a, if_neg hne]
      show (Raw.retry_go d outcome (a + 1) (r + 1)).attemptsMade + 1 = r + 1 + 1
      rw [h1]
    · simp only [Raw.retry_go, hfail a, if_neg hne]
      show d * (a + 1) :: (Raw.retry_go d outcome (a + 1) (r + 1)).sleeps
          = (List.range (r + 1)).map (fun i => d * (a + i + 1))
      rw [h2, List.range_succ_eq_map, List.map_cons, List.map_map]
      refine congrArg₂ List.cons (by simp) ?_
      refine List.map_congr_left ?_
      intro i _
      simp only [Function.comp_apply]
      congr 1
      omega
    · simp only [Raw.retry_go, hfail a, if_neg hne]
      show (Raw.retry_go d outcome (a + 1) (r + 1)).result
          = RetryOutcome.raisedDbError (codes (a + (r + 1)))
      rw [h3, show a + 1 + r = a + (r + 1) by omega]

theorem linear_sleeps_sum (d : Nat) : ∀ r : Nat,
    ((List.range r).map (fun i => d * (i + 1))).sum = d * (List.range (r + 1)).sum := by
  intro r
  induction r with
  | zero => simp [List.range_succ]
  | succ r ih =>
    rw [List.range_succ, List.map_append, List.sum_append, ih]
    rw [List.range_succ (n := r + 1), List.sum_append]
    simp [Nat.mul_add]

theorem retry_go_success {α : Type} (d : Nat) (outcome : Nat → AttemptOutcome α) :
    ∀ (j r a : Nat) (v : α), j < r →
      (∀ i, i < j → ∃ c, outcome (a + i) = AttemptOutcome.dbError c) →
      outcome (a + j) = AttemptOutcome.ok v →
      (Raw.retry_go d outcome a r).attemptsMade = j + 1
      ∧ (Raw.retry_go d outcome a r).result = RetryOutcome.returned v := by
  intro j
  induction j with
  | zero =>
    intro r a v hjr _ hok
    obtain ⟨r', rfl⟩ : ∃ r', r = r' + 1 := ⟨r - 1, by omega⟩
    rw [Nat.add_zero] at hok
    rw [Raw.retry_go, hok]
    exact ⟨rfl, rfl⟩
  | succ j ih =>
    intro r a v hjr hprev hok
    obtain ⟨r', rfl⟩ : ∃ r', r = r' + 1 := ⟨r - 1, by omega⟩
    obtain ⟨c, hc⟩ := hprev 0 (Nat.succ_pos j)
    rw [Nat.add_zero] at hc
    have hne : ¬ r' = 0 := by omega
    have hrest := ih r' (a + 1) v (by omega)
      (fun i hi => by
        obtain ⟨c', hc'⟩ := hprev (i + 1) (by omega)
        exact ⟨c', by rw [← hc']; congr 1; omega⟩)
      (by rw [← hok]; congr 1; omega)
    refine ⟨?_, ?_⟩
    · simp only [Raw.retry_go, hc, if_neg hne]
      show (Raw.retry_go d outcome (a + 1) r').attemptsMade + 1 = j + 1 + 1
      rw [hrest.1]
    · simp only [Raw.retry_go, hc, if_neg hne]
      show (Raw.retry_go d outcome (a + 1) r').result = RetryOutcome.returned v
      exact hrest.2

/-- C5: against an endpoint that fails every attempt with a driver error
(`pyodbc.Error`, the typed error that connectivity failures surface as),
`execute_query_with_retry` makes exactly `retry_attempts` attempts, sleeps
`retry_delay * attempt_number` between consecutive attempts — total backoff
`retry_delay * (1 + 2 + ... + (retry_attempts - 1))` — and re-raises only the
final attempt's driver error; and an attempt that succeeds before exhaustion
returns its value with no further attempts. -/
theorem C5_retry_policy {α : Type} (n d : Nat) (hn : 1 ≤ n) :
    (∀ (outcome : Nat → AttemptOutcome α) (codes : Nat → Nat),
      (∀ i, outcome i = AttemptOutcome.dbError (codes i)) →
        (Raw.execute_query_with_retry n d outcome).attemptsMade = n
        ∧ (Raw.execute_query_with_retry n d outcome).sleeps
            = (List.range (n - 1)).map (fun i => d * (i + 1))
        ∧ (Raw.execute_query_with_retry n d outcome).sleeps.sum
            = d * (List.range n).sum
        ∧ (Raw.execute_query_with_retry n d outcome).result
            = RetryOutcome.raisedDbError (codes (n - 1)))
    ∧ (∀ (outcome : Nat → AttemptOutcome α) (j : Nat) (v : α), j < n →
        (∀ i, i < j → ∃ c, outcome i = AttemptOutcome.dbError c) →
        outcome j = AttemptOutcome.ok v →
          (Raw.execute_query_with_retry n d outcome).attemptsMade = j + 1
          ∧ (Raw.execute_query_with_retry n d outcome).result
              = RetryOutcome.returned v) := by
  constructor
  · intro outcome codes hfail
    obtain ⟨m, rfl⟩ : ∃ m, n = m + 1 := ⟨n - 1, by omega⟩
    obtain ⟨h1, h2, h3⟩ := retry_go_all_db_fail d outcome codes hfail m 0
    rw [Raw.execute_query_with_retry]
    refine ⟨h1, ?_, ?_, ?_⟩
    · rw [h2]
      simp
    · rw [h2]
      have hsum := linear_sleeps_sum d m
      simpa using hsum
    · rw [h3]
      simp
  · intro outcome j v hj hprev hok
    have hres := retry_go_success d outcome j n 0 v hj
      (fun i hi => by simpa using hprev i hi)
      (by simpa using hok)
    exact hres

/-- Witness for C5 at `retry_attempts` = 3, `retry_delay` = 5. -/
theorem C5_witness :
    (1 : Nat) ≤ 3
    ∧ ((∀ (outcome : Nat → AttemptOutcome Unit) (codes : Nat → Nat),
          (∀ i, outcome i = AttemptOutcome.dbError (codes i)) →
            (Raw.execute_query_with_retry 3 5 outcome).attemptsMade = 3
            ∧ (Raw.execute_query_with_retry 3 5 outcome).sleeps
                = (List.range (3 - 1)).map (fun i => 5 * (i + 1))
            ∧ (Raw.execute_query_with_retry 3 5 outcome).sleeps.sum
                = 5 * (List.range 3).sum
            ∧ (Raw.execute_query_with_retry 3 5 outcome).result
                = RetryOutcome.raisedDbError (codes (3 - 1)))
      ∧ (∀ (outcome : Nat → AttemptOutcome Unit) (j : Nat) (v : Unit), j < 3 →
          (∀ i, i < j → ∃ c, outcome i = AttemptOutcome.dbError c) →
          outcome j = AttemptOutcome.ok v →
            (Raw.execute_query_with_retry 3 5 outcome).attemptsMade = j + 1
            ∧ (Raw.execute_query_with_retry 3 5 outcome).result
                = RetryOutcome.returned v)) :=
  ⟨by decide, C5_retry_policy 3 5 (by decide)⟩

theorem create_database_noop {st : ReplicaState} (h : st.dbExists = true) :
    Enhanced.create_database st = (st, []) := by
  rw [Enhanced.create_database, if_pos h]

theorem create_database_result (st : ReplicaState) :
    (Enhanced.create_database st).1.dbExists = true
    ∧ (Enhanced.create_database st).1.schemas = st.schemas
    ∧ (Enhanced.create_database st).1.tables = st.tables := by
  rw [Enhanced.create_database]
  by_cases h : st.dbExists = true
  · rw [if_pos h]
    exact ⟨h, rfl, rfl⟩
  · rw [if_neg h]
    exact ⟨rfl, rfl, rfl⟩

theorem create_schema_noop {st : ReplicaState} {name : String}
    (h : name = "dbo" ∨ name ∈ st.schemas) :
    Enhanced.create_schema st name = (st, []) := by
  rw [Enhanced.create_schema, if_neg]
  rintro ⟨h1, h2⟩
  rcases h with h | h
  · exact h1 h
  · exact h2 h

theorem create_schema_spec (st : ReplicaState) (name : String) :
    (name = "dbo" ∨ name ∈ (Enhanced.create_schema st name).1.schemas)
    ∧ st.schemas ⊆ (Enhanced.create_schema st name).1.schemas
    ∧ (Enhanced.create_schema st name).1.tables = st.tables
    ∧ (Enhanced.create_schema st name).1.dbExists = st.dbExists := by
  rw [Enhanced.create_schema]
  by_cases h : name ≠ "dbo" ∧ name ∉ st.schemas
  · rw [if_pos h]
    exact ⟨Or.inr (List.mem_cons_self _ _),
      fun x hx => List.mem_cons.mpr (Or.inr hx), rfl, rfl⟩
  · rw [if_neg h]
    refine ⟨?_, fun x hx => hx, rfl, rfl⟩
    rcases not_and_or.mp h with h | h
    · exact Or.inl (not_not.mp h)
    · exact Or.inr (not_not.mp h)

theorem setup_tables_spec (flags : SetupFlags) (sn : String) :
    ∀ (l : List TableConfig) (st : ReplicaState),
      st.tables ⊆ (Enhanced.setup_tables flags sn l st).1.tables
      ∧ (Enhanced.setup_tables flags sn l st).1.schemas = st.schemas
      ∧ (Enhanced.setup_tables flags sn l st).1.dbExists = st.dbExists
      ∧ (∀ tc ∈ l, tc.replicate = true → flags.createMissingTables = true →
          (sn, tc.table_name) ∈ (Enhanced.setup_tables flags sn l st).1.tables) := by
  intro l
  induction l with
  | nil =>
    intro st
    exact ⟨fun x hx => hx, rfl, rfl, fun tc h => absurd h (List.not_mem_nil tc)⟩
  | cons tc rest ih =>
    intro st
    rw [Enhanced.setup_tables]
    by_cases hc : tc.replicate = true ∧ flags.createMissingTables = true
        ∧ (sn, tc.table_name) ∉ st.tables
    · rw [if_pos hc]
      obtain ⟨hsub, hsch, hdb, hens⟩ :=
        ih { st with tables := (sn, tc.table_name) :: st.tables }
      refine ⟨?_, hsch, hdb, ?_⟩
      · intro x hx
        exact hsub (List.mem_cons.mpr (Or.inr hx))
      · intro tc' htc' hrep hcmt
        rcases List.mem_cons.mp htc' with h | h
        · subst h
          exact hsub (List.mem_cons.mpr (Or.inl rfl))
        · exact hens tc' h hrep hcmt
    · rw [if_neg hc]
      obtain ⟨hsub, hsch, hdb, hens⟩ := ih st
      refine ⟨hsub, hsch, hdb, ?_⟩
      intro tc' htc' hrep hcmt
      rcases List.mem_cons.mp htc' with h | h
      · subst h
        have hmem : (sn, tc'.table_name) ∈ st.tables := by
          by_contra hnot
          exact hc ⟨hrep, hcmt, hnot⟩
        exact hsub hmem
      · exact hens tc' h hrep hcmt

theorem setup_schemas_spec (flags : SetupFlags) :
    ∀ (l : List SchemaConfig) (st : ReplicaState),
      st.schemas ⊆ (Enhanced.setup_schemas flags l st).1.schemas
      ∧ st.tables ⊆ (Enhanced.setup_schemas flags l st).1.tables
      ∧ (Enhanced.setup_schemas flags l st).1.dbExists = st.dbExists
      ∧ (∀ sc ∈ l,
          (flags.createMissingSchemas = true →
            sc.schema_name = "dbo"
              ∨ sc.schema_name ∈ (Enhanced.setup_schemas flags l st).1.schemas)
          ∧ (∀ tc ∈ sc.tables, tc.replicate = true →
              flags.createMissingTables = true →
              (sc.schema_name, tc.table_name)
                ∈ (Enhanced.setup_schemas flags l st).1.tables)) := by
  intro l
  induction l with
  | nil =>
    intro st
    exact ⟨fun x hx => hx, fun x hx => hx, rfl, fun sc h => absurd h (List.not_mem_nil sc)⟩
  | cons sc rest ih =>
    intro st
    rw [Enhanced.setup_schemas]
    have hp1 := create_schema_spec st sc.schema_name
    set p1 : ReplicaState × List DDL :=
      (if flags.createMissingSchemas then Enhanced.create_schema st sc.schema_name
        else (st, [])) with hp1def
    have hp1schemas : st.schemas ⊆ p1.1.schemas := by
      rw [hp1def]
      by_cases hcms : flags.createMissingSchemas = true
      · rw [if_pos hcms]
        exact hp1.2.1
      · rw [if_neg hcms]
        exact fun x hx => hx
    have hp1tables : p1.1.tables = st.tables := by
      rw [hp1def]
      by_cases hcms : flags.createMissingSchemas = true
      · rw [if_pos hcms]
        exact hp1.2.2.1
      · rw [if_neg hcms]
    have hp1db : p1.1.dbExists = st.dbExists := by
      rw [hp1def]
      by_cases hcms : flags.createMissingSchemas = true
      · rw [if_pos hcms]
        exact hp1.2.2.2
      · rw [if_neg hcms]
    have hp1name : flags.createMissingSchemas = true →
        sc.schema_name = "dbo" ∨ sc.schema_name ∈ p1.1.schemas := by
      intro hcms
      rw [hp1def, if_pos hcms]
      exact hp1.1
    obtain ⟨ht_sub, ht_sch, ht_db, ht_ens⟩ :=
      setup_tables_spec flags sc.schema_name sc.tables p1.1
    obtain ⟨hr_sch, hr_tab, hr_db, hr_ens⟩ :=
      ih (Enhanced.setup_tables flags sc.schema_name sc.tables p1.1).1
    refine ⟨?_, ?_, ?_, ?_⟩
    · intro x hx
      exact hr_sch (ht_sch ▸ hp1schemas hx)
    · intro x hx
      exact hr_tab (ht_sub (hp1tables ▸ hx))
    · rw [hr_db, ht_db, hp1db]
    · intro sc' hsc'
      rcases List.mem_cons.mp hsc' with h | h
      · subst h
        constructor
        · intro hcms
          rcases hp1name hcms with hdbo | hmem
          · exact Or.inl hdbo
          · exact Or.inr (hr_sch (ht_sch ▸ hmem))
        · intro tc htc hrep hcmt
          exact hr_tab (ht_ens tc htc hrep hcmt)
      · exact hr_ens sc' h

theorem setup_tables_noop (flags : SetupFlags) (sn : String) :
    ∀ (l : List TableConfig) (st : ReplicaState),
      (∀ tc ∈ l, tc.replicate = true → flags.createMissingTables = true →
          (sn, tc.table_name) ∈ st.tables) →
      Enhanced.setup_tables flags sn l st = (st, []) := by
  intro l
  induction l with
  | nil =>
    intro st _
    rfl
  | cons tc rest ih =>
    intro st h
    rw [Enhanced.setup_tables, if_neg]
    · exact ih st (fun tc' h' => h tc' (List.mem_cons.mpr (Or.inr h')))
    · rintro ⟨hrep, hcmt, hnot⟩
      exact hnot (h tc (List.mem_cons_self _ _) hrep hcmt)

theorem setup_schemas_noop (flags : SetupFlags) :
    ∀ (l : List SchemaConfig) (st : ReplicaState),
      (∀ sc ∈ l, flags.createMissingSchemas = true →
          sc.schema_name = "dbo" ∨ sc.schema_name ∈ st.schemas) →
      (∀ sc ∈ l, ∀ tc ∈ sc.tables, tc.replicate = true →
          flags.createMissingTables = true →
          (sc.schema_name, tc.table_name) ∈ st.tables) →
      Enhanced.setup_schemas flags l st = (st, []) := by
  intro l
  induction l with
  | nil =>
    intro st _ _
    rfl
  | cons sc rest ih =>
    intro st hsch htab
    rw [Enhanced.setup_schemas]
    have h1 : (if flags.createMissingSchemas then
        Enhanced.create_schema st sc.schema_name else (st, [])) = (st, []) := by
      by_cases hcms : flags.createMissingSchemas = true
      · rw [if_pos hcms]
        exact create_schema_noop (hsch sc (List.mem_cons_self _ _) hcms)
      · rw [if_neg hcms]
    have h2 : Enhanced.setup_tables flags sc.schema_name sc.tables st = (st, []) :=
      setup_tables_noop flags sc.schema_name sc.tables st
        (htab sc (List.mem_cons_self _ _))
    have h3 : Enhanced.setup_schemas flags rest st = (st, []) :=
      ih st (fun sc' h' => hsch sc' (List.mem_cons.mpr (Or.inr h')))
        (fun sc' h' => htab sc' (List.mem_cons.mpr (Or.inr h')))
    rw [h1]
    simp only [h2, h3]
    rfl

theorem setup_replica_database_ready (flags : SetupFlags)
    (schemas : List SchemaConfig) (st : ReplicaState) :
    Enhanced.BootstrapReady flags schemas
      (Enhanced.setup_replica_database flags schemas st).1 := by
  obtain ⟨hsub, htab, hdb, hens⟩ := setup_schemas_spec flags schemas
      ((if flags.autoSetupReplicas then Enhanced.create_database st else (st, [])).1)
  refine ⟨?_, ?_, ?_⟩
  · intro hauto
    show (Enhanced.setup_schemas flags schemas
        ((if flags.autoSetupReplicas then Enhanced.create_database st
          else (st, [])).1)).1.dbExists = true
    rw [hdb, if_pos hauto]
    exact (create_database_result st).1
  · intro sc hsc hcms
    exact (hens sc hsc).1 hcms
  · intro sc hsc tc htc hrep hcmt
    exact (hens sc hsc).2 tc htc hrep hcmt

theorem setup_replica_database_noop (flags : SetupFlags)
    (schemas : List SchemaConfig) (st : ReplicaState)
    (h : Enhanced.BootstrapReady flags schemas st) :
    Enhanced.setup_replica_database flags schemas st = (st, []) := by
  obtain ⟨hdb, hsch, htab⟩ := h
  have h1 : (if flags.autoSetupReplicas then Enhanced.create_database st
      else (st, [])) = (st, []) := by
    by_cases hauto : flags.autoSetupReplicas = true
    · rw [if_pos hauto]
      exact create_database_noop (hdb hauto)
    · rw [if_neg hauto]
  rw [Enhanced.setup_replica_database, h1]
  simp only [setup_schemas_noop flags schemas st hsch htab]
  rfl

/-- C7: running the replica bootstrap (`_setup_replica_database`) twice in a
row with no change to the primary schema executes no DDL statement (no
CREATE DATABASE, CREATE SCHEMA or CREATE TABLE) on the second run: after the
first run every existence check (database, schema, table) short-circuits the
corresponding creation step, so each bootstrap step is idempotent. -/
theorem C7_bootstrap_idempotent (flags : SetupFlags) (schemas : List SchemaConfig)
    (st : ReplicaState) :
    (Enhanced.setup_replica_database flags schemas
        (Enhanced.setup_replica_database flags schemas st).1).2 = [] := by
  rw [setup_replica_database_noop flags schemas _
    (setup_replica_database_ready flags schemas st)]
